import Mathlib

/-!
Shallow embedding of the Seafowl HTTP query gateway and object-store facade
(src/frontend/http.rs and src/object_store/wrapped.rs), together with proofs
of the specified properties of the cached read path, the ETag pipeline, the
upload endpoint and the facade's delegation behaviour.

External collaborators (the DataFusion planner/executor "Context", the sha2
digest, the arrow CSV/Parquet decoders, tokio's filesystem calls and the inner
object store) are modelled as explicit parameters: the gateway only ever
invokes them and threads their results through, which is exactly what the
parameters capture.
-/

namespace Seafowl

/-- data_types::TableVersionId: a 64-bit integer id of an immutable table
version (the file defining the alias is not vendored here; the spec fixes it
as a 64-bit integer, used only for equality and decimal serialization). -/
abbrev TableVersionId := Int

/-- What ETagBuilderVisitor::pre_visit can observe about the source of a
TableScan node: a DefaultTableSource wrapping a versioned SeafowlTable, a
DefaultTableSource wrapping some other (external/foreign) provider, or a
source that is not a DefaultTableSource at all. -/
inductive TableSource where
  | seafowl (table_version_id : TableVersionId)
  | external
  | nonDefault
deriving DecidableEq, Repr

/-- The root-node kinds of datafusion::logical_plan::LogicalPlan that the
gateway distinguishes (frontend/http.rs lines 129-145 match on exactly the
eight mutating variants; all remaining variants fall into the catch-all). -/
inductive NodeKind where
  | tableScan (source : TableSource)
  | projection
  | filter
  | window
  | aggregate
  | sort
  | join
  | crossJoin
  | repartition
  | union
  | emptyRelation
  | subquery
  | subqueryAlias
  | limit
  | values
  | explain
  | distinct
  | createExternalTable
  | createMemoryTable
  | createView
  | createCatalogSchema
  | createCatalog
  | dropTable
  | analyze
  | extension
deriving DecidableEq, Repr

/-- A logical plan: a tree of nodes, each with a kind and a list of inputs.
The gateway treats the tree as opaque apart from node kinds and scan
sources. -/
inductive LogicalPlan where
  | node (kind : NodeKind) (inputs : List LogicalPlan)

/-- The root node's kind. -/
def rootKind : LogicalPlan → NodeKind
  | .node k _ => k

/-- ETagBuilderVisitor::pre_visit (http.rs lines 43-59): on a TableScan whose
source is a DefaultTableSource wrapping a SeafowlTable, push its
table_version_id onto the visitor state; always return Ok(true). The state is
the visitor's table_versions vector, passed explicitly. -/
def pre_visit (tvs : List TableVersionId) :
    LogicalPlan → Except Unit (Bool × List TableVersionId)
  | .node (.tableScan (.seafowl v)) _ => .ok (true, tvs ++ [v])
  | _ => .ok (true, tvs)

mutual
/-- LogicalPlan::accept for a visitor with only pre_visit overridden
(DataFusion's default post_visit returns Ok(true)): call pre_visit on the
node, stop on Err or Ok(false), otherwise recurse into the inputs in order. -/
def accept (p : LogicalPlan) (tvs : List TableVersionId) :
    Except Unit (Bool × List TableVersionId) :=
  match pre_visit tvs p with
  | .error e => .error e
  | .ok (false, tvs1) => .ok (false, tvs1)
  | .ok (true, tvs1) =>
    match p with
    | .node _ inputs => acceptList inputs tvs1

/-- accept folded over a list of sibling inputs, left to right. -/
def acceptList (ps : List LogicalPlan) (tvs : List TableVersionId) :
    Except Unit (Bool × List TableVersionId) :=
  match ps with
  | [] => .ok (true, tvs)
  | p :: rest =>
    match accept p tvs with
    | .error e => .error e
    | .ok (false, tvs1) => .ok (false, tvs1)
    | .ok (true, tvs1) => acceptList rest tvs1
end

/-- The version id a scan node contributes to the fingerprint, if any:
only internally-managed (SeafowlTable) scans contribute. -/
def scanVersion : NodeKind → Option TableVersionId
  | .tableScan (.seafowl v) => some v
  | _ => none

mutual
/-- Modelled from the spec (§3 Plan Fingerprint): the ordered sequence of
table-version identifiers encountered in pre-order traversal of the plan's
scans; external/foreign scans contribute nothing. Used as the specification
to compare the visitor-based implementation against. -/
def specFingerprint : LogicalPlan → List TableVersionId
  | .node k inputs => (scanVersion k).toList ++ specFingerprintList inputs

def specFingerprintList : List LogicalPlan → List TableVersionId
  | [] => []
  | p :: rest => specFingerprint p ++ specFingerprintList rest
end

mutual
/-- Generic pre-order listing of the kinds of all nodes of a plan, in the
traversal order used by LogicalPlan::accept. -/
def preOrderKinds : LogicalPlan → List NodeKind
  | .node k inputs => k :: preOrderKindsList inputs

def preOrderKindsList : List LogicalPlan → List NodeKind
  | [] => []
  | p :: rest => preOrderKinds p ++ preOrderKindsList rest
end

/-- The fingerprint the visitor extracts from a plan (the table_versions state
after plan.accept starting from the empty vector). -/
def fingerprint (p : LogicalPlan) : List TableVersionId :=
  match accept p [] with
  | .ok (_, tvs) => tvs
  | .error _ => []

/-! Decimal and JSON-array serialization (serde_json's compact output for a
Vec of 64-bit integers: a comma-separated bracketed list of unquoted decimal
numbers). -/

/-- Decimal digit string of a natural number, most significant digit first,
no leading zeros (and "0" for 0). -/
def natDecimal (n : Nat) : List Char :=
  if n = 0 then ['0'] else ((Nat.digits 10 n).map Nat.digitChar).reverse

/-- Decimal rendering of an integer as Rust's Display for i64 produces it:
optional leading minus sign followed by the decimal magnitude. -/
def intDecimal (i : Int) : List Char :=
  if i < 0 then '-' :: natDecimal i.natAbs else natDecimal i.natAbs

/-- The comma-separated items of the JSON array, without the brackets. -/
def jsonItems : List Int → List Char
  | [] => []
  | [x] => intDecimal x
  | x :: y :: rest => intDecimal x ++ ',' :: jsonItems (y :: rest)

/-- json!(table_versions).to_string(): the compact JSON-array serialization of
a list of integers, e.g. "[1,2,3]" (numeric, unquoted). -/
def jsonIntArray (xs : List Int) : String :=
  String.mk ('[' :: jsonItems xs ++ [']'])

/-- The ETag encoder: digest of the JSON-array serialization of a
fingerprint. The digest function (sha2's lowercase hex SHA-256 in the source)
is an explicit parameter. -/
def etagEncode (sha256hex : String → String) (fp : List TableVersionId) :
    String :=
  sha256hex (jsonIntArray fp)

/-- plan_to_etag (http.rs lines 62-71): run the ETag visitor over the plan
and hash the JSON serialization of the collected versions. The accept call
is unwrapped in the source; none models the panic on an Err result (proved
unreachable below). -/
def plan_to_etag (sha256hex : String → String) (plan : LogicalPlan) :
    Option String :=
  match accept plan [] with
  | .error _ => none
  | .ok (_, tvs) => some (sha256hex (jsonIntArray tvs))

/-- plan_to_etag with the unwrap discharged (the Err branch is proved
unreachable, so the default is never taken). -/
def plan_to_etagU (sha256hex : String → String) (plan : LogicalPlan) :
    String :=
  (plan_to_etag sha256hex plan).getD ""

/-! The cached read route (GET /q/\x7bquery_hash\x7d). -/

/-- An HTTP response as the handler shapes it: status code, body, and the
optional ETag header attached to 200 responses. -/
structure Response where
  status : Nat
  body : String
  etag : Option String
deriving DecidableEq, Repr

/-- The calls the handler makes into its collaborators, in order. reloadSchema,
createLogicalPlan, createPhysicalPlan and collect are Context methods;
computeEtag marks the plan_to_etag call. -/
inductive CtxEvent where
  | reloadSchema
  | createLogicalPlan
  | computeEtag
  | createPhysicalPlan
  | collect
deriving DecidableEq, Repr

/-- query_hash.split('.').next().unwrap() (http.rs line 105): the part of the
path hash before the first '.' (the whole string when it has no dot). -/
def hashBeforeDot (s : String) : String :=
  String.mk (s.data.takeWhile (fun c => c ≠ '.'))

/-- The eight root kinds the handler rejects on the cached route
(http.rs lines 130-137). -/
def mutatingKinds : List NodeKind :=
  [.createExternalTable, .createMemoryTable, .createView,
   .createCatalogSchema, .createCatalog, .dropTable, .analyze, .extension]

/-- The match on the plan root at http.rs lines 129-145: true exactly on the
eight listed variants. -/
def is_mutating : LogicalPlan → Bool
  | .node .createExternalTable _ => true
  | .node .createMemoryTable _ => true
  | .node .createView _ => true
  | .node .createCatalogSchema _ => true
  | .node .createCatalog _ => true
  | .node .dropTable _ => true
  | .node .analyze _ => true
  | .node .extension _ => true
  | _ => false

/-- cached_read_query (http.rs lines 98-168). The Context's
create_logical_plan and the physical-plan execution (create_physical_plan,
collect, and the NDJSON serialization of the batches) are collaborator
parameters, as is the sha2 digest; the unwraps on those calls are modelled by
letting the parameters be total. The second component is the ordered trace of
collaborator calls the handler makes. -/
def cached_read_query (sha256hex : String → String)
    (create_logical_plan : String → LogicalPlan)
    (execute : LogicalPlan → String)
    (query_hash : String) (query : String) (if_none_match : Option String) :
    Response × List CtxEvent :=
  let qh := hashBeforeDot query_hash
  let hash_str := sha256hex query
  if qh ≠ hash_str then
    (⟨400, "HASH_MISMATCH", none⟩, [.reloadSchema])
  else
    let plan := create_logical_plan query
    if is_mutating plan then
      (⟨405, "NOT_READ_ONLY_QUERY", none⟩, [.reloadSchema, .createLogicalPlan])
    else
      let etag := plan_to_etagU sha256hex plan
      if if_none_match = some etag then
        (⟨304, "NOT_MODIFIED", none⟩,
         [.reloadSchema, .createLogicalPlan, .computeEtag])
      else
        (⟨200, execute plan, some etag⟩,
         [.reloadSchema, .createLogicalPlan, .computeEtag,
          .createPhysicalPlan, .collect])

/-! The upload route (POST /upload/\x7bschema\x7d/\x7btable\x7d). -/

/-- An arrow schema field (name, data type, nullability). -/
structure ArrowField where
  name : String
  dtype : String
  nullable : Bool
deriving DecidableEq, Repr

/-- An arrow schema: a list of fields. -/
abbrev ArrowSchema := List ArrowField

/-- An opaque record batch (the handler never inspects batch contents). -/
abbrev RecordBatch := Nat

/-- A decoded partition: a sequence of record batches. -/
abbrev ArrowPartition := List RecordBatch

/-- The hard-coded CSV schema at http.rs lines 199-202. -/
def fruits_schema : ArrowSchema :=
  [⟨"fruit_id", "Int8", false⟩, ⟨"name", "Utf8", false⟩]

/-- str::ends_with as the upload handler uses it, as a suffix check on the
character sequence (equivalent to the byte-level check for valid UTF-8). -/
def ends_with (s suffixArg : String) : Bool :=
  suffixArg.data.isSuffixOf s.data

/-- A parsed multipart part: its name, its declared filename when present,
and its collected payload bytes. -/
structure Part where
  name : String
  filename : Option String
  content : List Nat
deriving DecidableEq, Repr

/-- The collaborators of the upload handler: the arrow CSV decode (fixed
fruits schema; none models the unwrap panics on build/read errors), the
arrow Parquet decode (schema inferred from the footer), and the Context's
plan_to_table (whose result the handler discards). -/
structure UploadEnv where
  decode_csv : List Nat → Option ArrowPartition
  decode_parquet : List Nat → Option (ArrowSchema × ArrowPartition)
  plan_to_table : ArrowSchema → ArrowPartition → String → Except String Unit

/-- The for-loop of upload (http.rs lines 178-244) over the collected parts.
Outer none models a panic (missing filename or a failed decode unwrap);
some (some r) is an early return with response r; some none means the loop
finished and the handler falls through to the final 200 "done". -/
def uploadLoop (env : UploadEnv) (table_name : String) :
    List Part → Option (Option Response)
  | [] => some none
  | p :: rest =>
    if p.name = "file" then
      match p.filename with
      | none => none
      | some filename =>
        if ends_with filename ".csv" then
          match env.decode_csv p.content with
          | none => none
          | some partition =>
            let _result := env.plan_to_table fruits_schema partition table_name
            uploadLoop env table_name rest
        else if ends_with filename ".parquet" then
          match env.decode_parquet p.content with
          | none => none
          | some sp =>
            let _result := env.plan_to_table sp.1 sp.2 table_name
            uploadLoop env table_name rest
        else
          some (some ⟨400, "File " ++ filename ++ " not supported", none⟩)
    else
      uploadLoop env table_name rest

/-- upload (http.rs lines 171-246), given an already-parsed multipart form
(the claims condition on the form parsing; the try_collect unwrap is outside
the modelled scope). none models a panic inside the loop. -/
def upload (env : UploadEnv) (_schema_name : String) (table_name : String)
    (parts : List Part) : Option Response :=
  match uploadLoop env table_name parts with
  | none => none
  | some (some r) => some r
  | some none => some ⟨200, "done", none⟩

/-- A part named "file" whose declared filename ends in neither ".csv" nor
".parquet" (the rejection case of the suffix dispatch). -/
def isBadFilePart (p : Part) : Bool :=
  p.name = "file" &&
    (match p.filename with
     | some f => !(ends_with f ".csv" || ends_with f ".parquet")
     | none => false)

/-! The object-store facade (src/object_store/wrapped.rs). -/

/-- Paths inside the object store (object_store::path::Path, relative,
slash-separated, no leading slash). -/
abbrev StorePath := String

/-- Opaque payload bytes. -/
abbrev StoreBytes := List Nat

/-- An opaque multipart-upload identifier. -/
abbrev MultipartId := String

/-- An opaque handle standing for the Box of the multipart writer. -/
abbrev WriteHandle := Nat

/-- Opaque object metadata token. -/
abbrev ObjectMeta := String

/-- Opaque list_with_delimiter result (common prefixes plus objects). -/
abbrev StoreListResult := List StorePath × List ObjectMeta

/-- The wrapped inner store (the Arc dyn ObjectStore field): one abstract
function per trait method the facade invokes, each returning whatever the
backend returns. The error payload is opaque. -/
structure InnerStore where
  put : StorePath → StoreBytes → Except String Unit
  put_multipart : StorePath → Except String (MultipartId × WriteHandle)
  abort_multipart : StorePath → MultipartId → Except String Unit
  get : StorePath → Except String StoreBytes
  get_range : StorePath → Nat → Nat → Except String StoreBytes
  head : StorePath → Except String ObjectMeta
  delete : StorePath → Except String Unit
  list : Option StorePath → Except String (List ObjectMeta)
  list_with_delimiter : Option StorePath → Except String StoreListResult
  copy : StorePath → StorePath → Except String Unit
  copy_if_not_exists : StorePath → StorePath → Except String Unit
  rename : StorePath → StorePath → Except String Unit
  rename_if_not_exists : StorePath → StorePath → Except String Unit

/-- config::schema::ObjectStore as wrapped.rs exhaustively matches it
(lines 36-45 and 141-144): Local with a data directory, InMemory, or S3 with
a bucket (further S3 fields do not influence the facade's branches). -/
inductive ObjectStoreConfig where
  | Local (data_dir : String)
  | InMemory
  | S3 (bucket : String)
deriving DecidableEq, Repr

/-- InternalObjectStore (wrapped.rs lines 27-32). -/
structure InternalObjectStore where
  inner : InnerStore
  root_uri : String
  config : ObjectStoreConfig

/-- Facade put (wrapped.rs lines 189-191). -/
def InternalObjectStore.put (s : InternalObjectStore)
    (location : StorePath) (bytes : StoreBytes) : Except String Unit :=
  s.inner.put location bytes

/-- Facade put_multipart (lines 193-198). -/
def InternalObjectStore.put_multipart (s : InternalObjectStore)
    (location : StorePath) : Except String (MultipartId × WriteHandle) :=
  s.inner.put_multipart location

/-- Facade abort_multipart (lines 200-206). -/
def InternalObjectStore.abort_multipart (s : InternalObjectStore)
    (location : StorePath) (multipart_id : MultipartId) : Except String Unit :=
  s.inner.abort_multipart location multipart_id

/-- Facade get (lines 209-211). -/
def InternalObjectStore.get (s : InternalObjectStore)
    (location : StorePath) : Except String StoreBytes :=
  s.inner.get location

/-- Facade get_range (lines 215-217). -/
def InternalObjectStore.get_range (s : InternalObjectStore)
    (location : StorePath) (lo hi : Nat) : Except String StoreBytes :=
  s.inner.get_range location lo hi

/-- Facade head (lines 220-222). -/
def InternalObjectStore.head (s : InternalObjectStore)
    (location : StorePath) : Except String ObjectMeta :=
  s.inner.head location

/-- Facade delete (lines 225-227). -/
def InternalObjectStore.delete (s : InternalObjectStore)
    (location : StorePath) : Except String Unit :=
  s.inner.delete location

/-- Facade list (lines 233-238). -/
def InternalObjectStore.list (s : InternalObjectStore)
    (pre : Option StorePath) : Except String (List ObjectMeta) :=
  s.inner.list pre

/-- Facade list_with_delimiter (lines 246-248). -/
def InternalObjectStore.list_with_delimiter (s : InternalObjectStore)
    (pre : Option StorePath) : Except String StoreListResult :=
  s.inner.list_with_delimiter pre

/-- Facade copy (lines 253-255). -/
def InternalObjectStore.copy (s : InternalObjectStore)
    (src dst : StorePath) : Except String Unit :=
  s.inner.copy src dst

/-- Facade copy_if_not_exists (lines 260-262). -/
def InternalObjectStore.copy_if_not_exists (s : InternalObjectStore)
    (src dst : StorePath) : Except String Unit :=
  s.inner.copy_if_not_exists src dst

/-- Facade rename_if_not_exists (wrapped.rs lines 267-269): a plain
delegation to the inner store's conditional rename, with no inspection of
the config. -/
def InternalObjectStore.rename_if_not_exists (s : InternalObjectStore)
    (src dst : StorePath) : Except String Unit :=
  s.inner.rename_if_not_exists src dst

/-! fast_upload (wrapped.rs lines 136-177). -/

/-- A std::io::Error as fast_upload observes it: only raw_os_error is
consulted. -/
structure IoError where
  raw_os_error : Option Int
deriving DecidableEq, Repr

/-- object_store::Error as fast_upload produces it: the Generic variant with
a store label and the wrapped io error. -/
inductive StoreErr where
  | generic (store : String) (source : IoError)
deriving DecidableEq, Repr

/-- The tokio::fs calls fast_upload makes, as abstract collaborators. copy
returns the number of bytes copied. -/
structure FsEnv where
  rename : String → String → Except IoError Unit
  copy : String → String → Except IoError Nat
  remove_file : String → Except IoError Unit

/-- The filesystem operations fast_upload can issue, for the call trace.
createDirAll is included so that its absence from every trace is expressible
(the facade's separate ensure_path_exists helper is the only caller of
create_dir_all). -/
inductive FsOp where
  | rename (src dst : String)
  | copy (src dst : String)
  | removeFile (p : String)
  | createDirAll (d : String)
deriving DecidableEq, Repr

/-- StdPath::new(dir).join(p) for a relative object-store path p. -/
def path_join (dir p : String) : String := dir ++ "/" ++ p

/-- fast_upload (wrapped.rs lines 136-177): None unless the backend is
local-FS; otherwise rename the file to data_dir/to, and on raw OS error 18
(EXDEV) fall back to copy-then-remove, wrapping io errors as Generic. The
second component is the ordered trace of filesystem calls issued. -/
def fast_upload (store : InternalObjectStore) (fs : FsEnv)
    (src : String) (dst : StorePath) :
    Option (Except StoreErr Unit) × List FsOp :=
  match store.config with
  | .Local data_dir =>
    let target_path := path_join data_dir dst
    match fs.rename src target_path with
    | .ok _ => (some (.ok ()), [.rename src target_path])
    | .error e =>
      if e.raw_os_error = some 18 then
        match fs.copy src target_path with
        | .error ce =>
          (some (.error (.generic "local" ce)),
           [.rename src target_path, .copy src target_path])
        | .ok _ =>
          match fs.remove_file src with
          | .error re =>
            (some (.error (.generic "local" re)),
             [.rename src target_path, .copy src target_path,
              .removeFile src])
          | .ok _ =>
            (some (.ok ()),
             [.rename src target_path, .copy src target_path,
              .removeFile src])
      else
        (some (.error (.generic "local" e)), [.rename src target_path])
  | _ => (none, [])

/-! Helper lemmas: the visitor computes the pre-order fingerprint. -/

/-- pre_visit always succeeds with true and appends exactly the root scan's
contribution. -/
theorem pre_visit_eq (tvs : List TableVersionId) (p : LogicalPlan) :
    pre_visit tvs p = .ok (true, tvs ++ (scanVersion (rootKind p)).toList) := by
  obtain ⟨k, inputs⟩ := p
  cases k <;> try simp [pre_visit, scanVersion, rootKind]
  rename_i src
  cases src <;> simp [pre_visit, scanVersion, rootKind]

mutual
/-- accept always succeeds with true, appending the pre-order fingerprint to
the incoming state. -/
theorem accept_eq (p : LogicalPlan) (tvs : List TableVersionId) :
    accept p tvs = .ok (true, tvs ++ specFingerprint p) :=
  match p with
  | .node k inputs => by
    rw [accept, pre_visit_eq]
    simp only []
    rw [acceptList_eq inputs]
    simp [specFingerprint, rootKind]

theorem acceptList_eq (ps : List LogicalPlan) (tvs : List TableVersionId) :
    acceptList ps tvs = .ok (true, tvs ++ specFingerprintList ps) :=
  match ps with
  | [] => by simp [acceptList, specFingerprintList]
  | p :: rest => by
    rw [acceptList, accept_eq p]
    simp only []
    rw [acceptList_eq rest]
    simp [specFingerprintList]
end

/-- The state extracted by the visitor is the pre-order fingerprint. -/
theorem fingerprint_eq_spec (p : LogicalPlan) :
    fingerprint p = specFingerprint p := by
  unfold fingerprint
  rw [accept_eq]
  simp

mutual
/-- The spec fingerprint is the filterMap of scan versions over the generic
pre-order node listing. -/
theorem specFingerprint_eq_filterMap (p : LogicalPlan) :
    specFingerprint p = (preOrderKinds p).filterMap scanVersion :=
  match p with
  | .node k inputs => by
    rw [specFingerprint, preOrderKinds, List.filterMap_cons,
      specFingerprintList_eq_filterMap inputs]
    cases h : scanVersion k <;> simp [h]

theorem specFingerprintList_eq_filterMap (ps : List LogicalPlan) :
    specFingerprintList ps = (preOrderKindsList ps).filterMap scanVersion :=
  match ps with
  | [] => by simp [specFingerprintList, preOrderKindsList]
  | p :: rest => by
    rw [specFingerprintList, preOrderKindsList, List.filterMap_append,
      specFingerprint_eq_filterMap p, specFingerprintList_eq_filterMap rest]
end

/-- plan_to_etag never hits the unwrap's panic branch and computes the digest
of the serialized spec fingerprint. -/
theorem plan_to_etag_eq (sha256hex : String → String) (p : LogicalPlan) :
    plan_to_etag sha256hex p
      = some (sha256hex (jsonIntArray (specFingerprint p))) := by
  unfold plan_to_etag
  rw [accept_eq]
  simp

/-- The unwrapped ETag value. -/
theorem plan_to_etagU_eq (sha256hex : String → String) (p : LogicalPlan) :
    plan_to_etagU sha256hex p
      = sha256hex (jsonIntArray (specFingerprint p)) := by
  unfold plan_to_etagU
  rw [plan_to_etag_eq]
  rfl

/-! Helper lemmas: injectivity of the JSON-array serialization. -/

/-- The ten decimal digit characters. -/
def digitChars : List Char :=
  ['0', '1', '2', '3', '4', '5', '6', '7', '8', '9']

theorem digitChar_mem_digitChars : ∀ d < 10, Nat.digitChar d ∈ digitChars := by
  decide

theorem digitChar_inj10 :
    ∀ a < 10, ∀ b < 10, Nat.digitChar a = Nat.digitChar b → a = b := by
  decide

theorem natDecimal_ne_nil (n : Nat) : natDecimal n ≠ [] := by
  unfold natDecimal
  split
  · simp
  · rename_i hn
    simp [Nat.digits_ne_nil_iff_ne_zero, hn]

theorem mem_natDecimal {n : Nat} {c : Char} (hc : c ∈ natDecimal n) :
    c ∈ digitChars := by
  unfold natDecimal at hc
  split at hc
  · simp at hc
    simp [hc, digitChars]
  · rw [List.mem_reverse] at hc
    obtain ⟨d, hd, rfl⟩ := List.mem_map.mp hc
    exact digitChar_mem_digitChars d (Nat.digits_lt_base (by norm_num) hd)

theorem map_digitChar_inj :
    ∀ (l₁ l₂ : List Nat), (∀ d ∈ l₁, d < 10) → (∀ d ∈ l₂, d < 10) →
      l₁.map Nat.digitChar = l₂.map Nat.digitChar → l₁ = l₂ := by
  intro l₁
  induction l₁ with
  | nil =>
    intro l₂ _ _ h
    cases l₂ with
    | nil => rfl
    | cons b t => simp at h
  | cons a t ih =>
    intro l₂ h1 h2 h
    cases l₂ with
    | nil => simp at h
    | cons b t₂ =>
      simp only [List.map_cons, List.cons.injEq] at h
      have hab : a = b :=
        digitChar_inj10 a (h1 a (by simp)) b (h2 b (by simp)) h.1
      subst hab
      rw [ih t₂ (fun d hd => h1 d (by simp [hd]))
        (fun d hd => h2 d (by simp [hd])) h.2]

theorem natDecimal_inj {m n : Nat} (h : natDecimal m = natDecimal n) :
    m = n := by
  by_cases hm : m = 0 <;> by_cases hn : n = 0
  · omega
  · exfalso
    rw [natDecimal, if_pos hm, natDecimal, if_neg hn] at h
    have h' : (Nat.digits 10 n).map Nat.digitChar = ['0'] := by
      have := congrArg List.reverse h
      simpa using this.symm
    obtain ⟨d, rest, hdr⟩ : ∃ d rest, Nat.digits 10 n = d :: rest := by
      cases hdig : Nat.digits 10 n with
      | nil => rw [hdig] at h'; simp at h'
      | cons d rest => exact ⟨d, rest, rfl⟩
    rw [hdr] at h'
    simp only [List.map_cons, List.cons.injEq] at h'
    have hrest : rest = [] := by
      have := h'.2
      simpa using this
    subst hrest
    have hd10 : d < 10 :=
      Nat.digits_lt_base (by norm_num) (by rw [hdr]; simp)
    have hd0 : d = 0 := digitChar_inj10 d hd10 0 (by norm_num) (by
      rw [h'.1]; rfl)
    subst hd0
    have hofd := Nat.ofDigits_digits 10 n
    rw [hdr] at hofd
    simp [Nat.ofDigits_cons, Nat.ofDigits_nil] at hofd
    exact hn hofd.symm
  · exfalso
    rw [natDecimal, if_neg hm, natDecimal, if_pos hn] at h
    have h' : (Nat.digits 10 m).map Nat.digitChar = ['0'] := by
      have := congrArg List.reverse h
      simpa using this
    obtain ⟨d, rest, hdr⟩ : ∃ d rest, Nat.digits 10 m = d :: rest := by
      cases hdig : Nat.digits 10 m with
      | nil => rw [hdig] at h'; simp at h'
      | cons d rest => exact ⟨d, rest, rfl⟩
    rw [hdr] at h'
    simp only [List.map_cons, List.cons.injEq] at h'
    have hrest : rest = [] := by
      have := h'.2
      simpa using this
    subst hrest
    have hd10 : d < 10 :=
      Nat.digits_lt_base (by norm_num) (by rw [hdr]; simp)
    have hd0 : d = 0 := digitChar_inj10 d hd10 0 (by norm_num) (by
      rw [h'.1]; rfl)
    subst hd0
    have hofd := Nat.ofDigits_digits 10 m
    rw [hdr] at hofd
    simp [Nat.ofDigits_cons, Nat.ofDigits_nil] at hofd
    exact hm hofd.symm
  · rw [natDecimal, if_neg hm, natDecimal, if_neg hn] at h
    have h' := List.reverse_injective h
    have hmap := map_digitChar_inj _ _
      (fun d hd => Nat.digits_lt_base (by norm_num) hd)
      (fun d hd => Nat.digits_lt_base (by norm_num) hd) h'
    exact Nat.digits.injective 10 hmap

theorem intDecimal_ne_nil (i : Int) : intDecimal i ≠ [] := by
  unfold intDecimal
  split
  · simp
  · exact natDecimal_ne_nil _

theorem mem_intDecimal {i : Int} {c : Char} (hc : c ∈ intDecimal i) :
    c = '-' ∨ c ∈ digitChars := by
  unfold intDecimal at hc
  split at hc
  · rcases List.mem_cons.mp hc with h | h
    · exact Or.inl h
    · exact Or.inr (mem_natDecimal h)
  · exact Or.inr (mem_natDecimal hc)

theorem intDecimal_no_comma {i : Int} : ∀ c ∈ intDecimal i, c ≠ ',' := by
  intro c hc
  rcases mem_intDecimal hc with rfl | h
  · decide
  · simp only [digitChars, List.mem_cons, List.not_mem_nil, or_false] at h
    rcases h with rfl | rfl | rfl | rfl | rfl | rfl | rfl | rfl | rfl | rfl <;>
      decide

theorem intDecimal_inj {i j : Int} (h : intDecimal i = intDecimal j) :
    i = j := by
  unfold intDecimal at h
  split at h <;> split at h
  · rename_i hi hj
    simp only [List.cons.injEq, true_and] at h
    have := natDecimal_inj h
    omega
  · rename_i hi hj
    exfalso
    have hm : '-' ∈ natDecimal j.natAbs := by
      rw [← h]
      simp
    exact absurd (mem_natDecimal hm) (by decide)
  · rename_i hi hj
    exfalso
    have hm : '-' ∈ natDecimal i.natAbs := by
      rw [h]
      simp
    exact absurd (mem_natDecimal hm) (by decide)
  · rename_i hi hj
    have := natDecimal_inj h
    omega

/-- Cancellation for comma-separated concatenations: if two comma-free blocks
are followed by rests that are empty or start with a comma, equal
concatenations force equal blocks and equal rests. -/
theorem comma_sep_cancel :
    ∀ (a b ra rb : List Char), (∀ c ∈ a, c ≠ ',') → (∀ c ∈ b, c ≠ ',') →
      (ra = [] ∨ ∃ t, ra = ',' :: t) → (rb = [] ∨ ∃ t, rb = ',' :: t) →
      a ++ ra = b ++ rb → a = b ∧ ra = rb := by
  intro a
  induction a with
  | nil =>
    intro b ra rb _ hb hra _ h
    cases b with
    | nil => simpa using h
    | cons d t =>
      exfalso
      rcases hra with rfl | ⟨s, rfl⟩
      · simp at h
      · simp only [List.nil_append, List.cons_append, List.cons.injEq] at h
        exact hb d (by simp) h.1.symm
  | cons c a' ih =>
    intro b ra rb ha hb hra hrb h
    cases b with
    | nil =>
      exfalso
      rcases hrb with rfl | ⟨s, rfl⟩
      · simp at h
      · simp only [List.nil_append, List.cons_append, List.cons.injEq] at h
        exact ha c (by simp) h.1
    | cons d t =>
      simp only [List.cons_append, List.cons.injEq] at h
      obtain ⟨rfl, h2⟩ := h
      obtain ⟨h3, h4⟩ := ih t ra rb (fun x hx => ha x (by simp [hx]))
        (fun x hx => hb x (by simp [hx])) hra hrb h2
      exact ⟨by rw [h3], h4⟩

/-- The comma-separated item serialization is injective. -/
theorem jsonItems_inj :
    ∀ (l₁ l₂ : List Int), jsonItems l₁ = jsonItems l₂ → l₁ = l₂
  | [], [], _ => rfl
  | [], [y], h => absurd h.symm (intDecimal_ne_nil y)
  | [], x :: y :: r, h => by
    exfalso
    rw [jsonItems, jsonItems] at h
    rcases List.append_eq_nil.mp h.symm with ⟨h1, _⟩
    exact intDecimal_ne_nil x h1
  | [x], [], h => absurd h (intDecimal_ne_nil x)
  | x :: y :: r, [], h => by
    exfalso
    rw [jsonItems, jsonItems] at h
    rcases List.append_eq_nil.mp h with ⟨h1, _⟩
    exact intDecimal_ne_nil x h1
  | [x], [y], h => by rw [intDecimal_inj h]
  | [x], y :: z :: r, h => by
    exfalso
    rw [jsonItems, jsonItems] at h
    have h' : intDecimal x ++ ([] : List Char)
        = intDecimal y ++ ',' :: jsonItems (z :: r) := by
      simpa using h
    obtain ⟨_, h2⟩ := comma_sep_cancel _ _ _ _ intDecimal_no_comma
      intDecimal_no_comma (Or.inl rfl) (Or.inr ⟨_, rfl⟩) h'
    simp at h2
  | x :: z :: r, [y], h => by
    exfalso
    rw [jsonItems, jsonItems] at h
    have h' : intDecimal x ++ ',' :: jsonItems (z :: r)
        = intDecimal y ++ ([] : List Char) := by
      simpa using h
    obtain ⟨_, h2⟩ := comma_sep_cancel _ _ _ _ intDecimal_no_comma
      intDecimal_no_comma (Or.inr ⟨_, rfl⟩) (Or.inl rfl) h'
    simp at h2
  | x :: x' :: xr, y :: y' :: yr, h => by
    rw [jsonItems, jsonItems] at h
    obtain ⟨h1, h2⟩ := comma_sep_cancel _ _ _ _ intDecimal_no_comma
      intDecimal_no_comma (Or.inr ⟨_, rfl⟩) (Or.inr ⟨_, rfl⟩) h
    have hx : x = y := intDecimal_inj h1
    have h3 : jsonItems (x' :: xr) = jsonItems (y' :: yr) := by
      simpa using h2
    have := jsonItems_inj (x' :: xr) (y' :: yr) h3
    rw [hx, this]

/-- The compact JSON-array serialization of integer lists is injective. -/
theorem jsonIntArray_inj {a b : List Int} (h : jsonIntArray a = jsonIntArray b) :
    a = b := by
  unfold jsonIntArray at h
  have hdata : '[' :: jsonItems a ++ [']'] = '[' :: jsonItems b ++ [']'] :=
    congrArg String.data h
  simp only [List.cons_append, List.cons.injEq, true_and] at hdata
  have := (List.append_inj' hdata rfl).1
  exact jsonItems_inj _ _ this

/-! The claims. -/

/-- C10: ETagBuilderVisitor::pre_visit returns Ok(true) on every logical plan
node (its error type is never produced), so plan.accept never returns Err and
the unwrap inside plan_to_etag cannot panic: plan_to_etag is a total function
of the plan. -/
theorem C10_pre_visit_total :
    (∀ (tvs : List TableVersionId) (p : LogicalPlan), ∃ tvs2,
      pre_visit tvs p = .ok (true, tvs2)) ∧
    (∀ (p : LogicalPlan) (tvs : List TableVersionId), ∃ tvs2,
      accept p tvs = .ok (true, tvs2)) ∧
    (∀ (sha256hex : String → String) (p : LogicalPlan),
      (plan_to_etag sha256hex p).isSome = true) :=
  ⟨fun tvs p => ⟨_, pre_visit_eq tvs p⟩,
   fun p tvs => ⟨_, accept_eq p tvs⟩,
   fun sha256hex p => by rw [plan_to_etag_eq]; rfl⟩

/-- C5: the fingerprint is exactly the filterMap of SeafowlTable scan
versions over the pre-order node listing (external and foreign scans
contribute nothing), so any two plans whose internal scans reference the
same versions in the same order produce identical fingerprints. -/
theorem C5_fingerprint_preorder :
    (∀ p : LogicalPlan,
      fingerprint p = (preOrderKinds p).filterMap scanVersion) ∧
    (∀ s : TableSource, (∀ v, s ≠ .seafowl v) →
      scanVersion (.tableScan s) = none) ∧
    (∀ p q : LogicalPlan,
      (preOrderKinds p).filterMap scanVersion
        = (preOrderKinds q).filterMap scanVersion →
      fingerprint p = fingerprint q) := by
  refine ⟨?_, ?_, ?_⟩
  · intro p
    rw [fingerprint_eq_spec, specFingerprint_eq_filterMap]
  · intro s hs
    cases s with
    | seafowl v => exact absurd rfl (hs v)
    | external => rfl
    | nonDefault => rfl
  · intro p q h
    rw [fingerprint_eq_spec, specFingerprint_eq_filterMap,
      fingerprint_eq_spec, specFingerprint_eq_filterMap, h]

/-- Witness for C5 at concrete plans: a bare internal scan of version 1 and a
projection over the same scan plus an external scan have equal pre-order
version sequences, hence equal fingerprints; the external scan contributes
nothing. -/
theorem C5_fingerprint_preorder_witness :
    fingerprint (.node (.tableScan (.seafowl 1)) [])
      = fingerprint (.node .projection
          [.node (.tableScan (.seafowl 1)) [],
           .node (.tableScan .external) []]) ∧
    scanVersion (.tableScan .external) = none :=
  ⟨C5_fingerprint_preorder.2.2 _ _ rfl,
   C5_fingerprint_preorder.2.1 .external (fun _ h => TableSource.noConfusion h)⟩

/-- C4: the ETag of a plan is the digest of the compact JSON-array
serialization of its fingerprint, and (for an injective digest, which is how
the spec idealizes SHA-256's collision resistance) two fingerprints encode
equal iff they are equal; the serialization itself is injective
unconditionally. -/
theorem C4_etag_encoding (sha256hex : String → String)
    (hinj : Function.Injective sha256hex) :
    (∀ p : LogicalPlan,
      plan_to_etag sha256hex p
        = some (etagEncode sha256hex (fingerprint p))) ∧
    (∀ a b : List TableVersionId,
      etagEncode sha256hex a = etagEncode sha256hex b ↔ a = b) := by
  constructor
  · intro p
    rw [plan_to_etag_eq, fingerprint_eq_spec, etagEncode]
  · intro a b
    constructor
    · intro h
      exact jsonIntArray_inj (hinj h)
    · intro h
      rw [h]

/-- Witness for C4 with the identity digest (injective) at the concrete
fingerprints [1, 2] and [2, 1]. -/
theorem C4_etag_encoding_witness :
    Function.Injective (fun s : String => s) ∧
    (etagEncode (fun s => s) [1, 2] = etagEncode (fun s => s) [2, 1]
      ↔ ([1, 2] : List TableVersionId) = [2, 1]) :=
  ⟨fun _ _ h => h,
   (C4_etag_encoding (fun s => s) (fun _ _ h => h)).2 [1, 2] [2, 1]⟩

/-- C9: each of the twelve ObjectStore trait methods on the facade returns
exactly the result of the same method on the wrapped inner store, for every
backend configuration and all arguments. -/
theorem C9_facade_delegation :
    (∀ (s : InternalObjectStore) (l : StorePath) (b : StoreBytes),
      s.put l b = s.inner.put l b) ∧
    (∀ (s : InternalObjectStore) (l : StorePath),
      s.put_multipart l = s.inner.put_multipart l) ∧
    (∀ (s : InternalObjectStore) (l : StorePath) (m : MultipartId),
      s.abort_multipart l m = s.inner.abort_multipart l m) ∧
    (∀ (s : InternalObjectStore) (l : StorePath),
      s.get l = s.inner.get l) ∧
    (∀ (s : InternalObjectStore) (l : StorePath) (lo hi : Nat),
      s.get_range l lo hi = s.inner.get_range l lo hi) ∧
    (∀ (s : InternalObjectStore) (l : StorePath),
      s.head l = s.inner.head l) ∧
    (∀ (s : InternalObjectStore) (l : StorePath),
      s.delete l = s.inner.delete l) ∧
    (∀ (s : InternalObjectStore) (pre : Option StorePath),
      s.list pre = s.inner.list pre) ∧
    (∀ (s : InternalObjectStore) (pre : Option StorePath),
      s.list_with_delimiter pre = s.inner.list_with_delimiter pre) ∧
    (∀ (s : InternalObjectStore) (a b : StorePath),
      s.copy a b = s.inner.copy a b) ∧
    (∀ (s : InternalObjectStore) (a b : StorePath),
      s.copy_if_not_exists a b = s.inner.copy_if_not_exists a b) ∧
    (∀ (s : InternalObjectStore) (a b : StorePath),
      s.rename_if_not_exists a b = s.inner.rename_if_not_exists a b) :=
  ⟨fun _ _ _ => rfl, fun _ _ => rfl, fun _ _ _ => rfl, fun _ _ => rfl,
   fun _ _ _ _ => rfl, fun _ _ => rfl, fun _ _ => rfl, fun _ _ => rfl,
   fun _ _ => rfl, fun _ _ _ => rfl, fun _ _ _ => rfl, fun _ _ _ => rfl⟩

/-- An inner store whose plain rename and conditional rename are observably
different, separating the two possible delegation targets. -/
def innerProbe : InnerStore where
  put := fun _ _ => .ok ()
  put_multipart := fun _ => .ok ("", 0)
  abort_multipart := fun _ _ => .ok ()
  get := fun _ => .ok []
  get_range := fun _ _ _ => .ok []
  head := fun _ => .ok ""
  delete := fun _ => .ok ()
  list := fun _ => .ok []
  list_with_delimiter := fun _ => .ok ([], [])
  copy := fun _ _ => .ok ()
  copy_if_not_exists := fun _ _ => .ok ()
  rename := fun _ _ => .error "plain-rename"
  rename_if_not_exists := fun _ _ => .error "conditional-rename"

/-- C6 counterexample: on the S3 variant the facade's rename_if_not_exists
returns the inner store's conditional rename_if_not_exists result, not the
result of the inner store's plain (non-conditional) rename — there is no
S3 special case in the code. -/
theorem C6_counterexample_s3_rename :
    (InternalObjectStore.mk innerProbe "s3://bucket"
        (.S3 "bucket")).rename_if_not_exists "a" "b"
      = .error "conditional-rename" ∧
    innerProbe.rename "a" "b" = .error "plain-rename" ∧
    (InternalObjectStore.mk innerProbe "s3://bucket"
        (.S3 "bucket")).rename_if_not_exists "a" "b"
      ≠ innerProbe.rename "a" "b" := by
  refine ⟨rfl, rfl, ?_⟩
  intro h
  have h2 : ("conditional-rename" : String) = "plain-rename" := by
    injection h
  exact absurd h2 (by decide)

/-- C6 amended: for every backend variant, S3 included,
rename_if_not_exists delegates to the inner store's conditional
(copy_if_not_exists-based) rename_if_not_exists. -/
theorem C6_rename_delegation_amended (inner : InnerStore) (root_uri : String)
    (config : ObjectStoreConfig) (src dst : StorePath) :
    (InternalObjectStore.mk inner root_uri config).rename_if_not_exists src dst
      = inner.rename_if_not_exists src dst := rfl

/-- A filesystem in which every call fails with raw OS error 2 (ENOENT, as a
rename into a missing parent directory does). -/
def fsNoParent : FsEnv where
  rename := fun _ _ => .error ⟨some 2⟩
  copy := fun _ _ => .error ⟨some 2⟩
  remove_file := fun _ => .error ⟨some 2⟩

/-- C7 counterexample: on a local-FS store whose target parent directory is
missing, fast_upload issues only the rename (no directory-creation call of
any kind) and returns the wrapped ENOENT error instead of creating parent
directories and succeeding. -/
theorem C7_counterexample_no_mkdir :
    fast_upload ⟨innerProbe, "file:///data/", .Local "data"⟩ fsNoParent
        "tmp/part" "tbl/part"
      = (some (.error (.generic "local" ⟨some 2⟩)),
         [.rename "tmp/part" "data/tbl/part"]) ∧
    FsOp.createDirAll "data/tbl" ∉
      (fast_upload ⟨innerProbe, "file:///data/", .Local "data"⟩ fsNoParent
        "tmp/part" "tbl/part").2 := by
  constructor
  · rfl
  · decide

/-- C7 amended: on a local-FS backend fast_upload renames the source file to
data_dir/dst (without creating parent directories — that is the separate
ensure_path_exists helper's job); when the rename fails with raw OS error 18
it falls back to copy-then-remove and still returns success; on any other
backend it returns None without touching the filesystem. -/
theorem C7_fast_upload_amended (inner : InnerStore) (root_uri : String)
    (config : ObjectStoreConfig) (fs : FsEnv) (src : String) (dst : StorePath)
    (data_dir : String) :
    (config = .Local data_dir →
      (fs.rename src (path_join data_dir dst) = .ok () →
        fast_upload ⟨inner, root_uri, config⟩ fs src dst
          = (some (.ok ()), [.rename src (path_join data_dir dst)])) ∧
      (∀ e : IoError, fs.rename src (path_join data_dir dst) = .error e →
        e.raw_os_error = some 18 →
        ∀ nbytes : Nat, fs.copy src (path_join data_dir dst) = .ok nbytes →
        fs.remove_file src = .ok () →
        fast_upload ⟨inner, root_uri, config⟩ fs src dst
          = (some (.ok ()),
             [.rename src (path_join data_dir dst),
              .copy src (path_join data_dir dst), .removeFile src]))) ∧
    ((∀ d, config ≠ .Local d) →
      fast_upload ⟨inner, root_uri, config⟩ fs src dst = (none, [])) := by
  constructor
  · intro hcfg
    subst hcfg
    constructor
    · intro hren
      simp [fast_upload, hren]
    · intro e hren h18 nbytes hcopy hrm
      simp [fast_upload, hren, h18, hcopy, hrm]
  · intro hother
    cases hc : config with
    | Local d => exact absurd hc (hother d)
    | InMemory => simp [fast_upload]
    | S3 b => simp [fast_upload]

/-- Witness for C7 at concrete inputs: a successful local rename, the EXDEV
copy-then-remove fallback, and an S3 store returning the not-applicable
signal with an empty call trace. -/
theorem C7_fast_upload_amended_witness :
    fast_upload ⟨innerProbe, "file:///data/", .Local "data"⟩
        ⟨fun _ _ => .ok (), fun _ _ => .ok 0, fun _ => .ok ()⟩ "tmp/f" "t/f"
      = (some (.ok ()), [.rename "tmp/f" "data/t/f"]) ∧
    fast_upload ⟨innerProbe, "file:///data/", .Local "data"⟩
        ⟨fun _ _ => .error ⟨some 18⟩, fun _ _ => .ok 7, fun _ => .ok ()⟩
        "tmp/f" "t/f"
      = (some (.ok ()),
         [.rename "tmp/f" "data/t/f", .copy "tmp/f" "data/t/f",
          .removeFile "tmp/f"]) ∧
    fast_upload ⟨innerProbe, "s3://bucket", .S3 "bucket"⟩
        ⟨fun _ _ => .ok (), fun _ _ => .ok 0, fun _ => .ok ()⟩ "tmp/f" "t/f"
      = (none, []) :=
  ⟨((C7_fast_upload_amended _ _ _ _ _ _ "data").1 rfl).1 rfl,
   ((C7_fast_upload_amended _ _ _ _ _ _ "data").1 rfl).2 ⟨some 18⟩ rfl rfl 7
     rfl rfl,
   (C7_fast_upload_amended _ _ _ _ _ _ "data").2
     (fun _ h => ObjectStoreConfig.noConfusion h)⟩

/-- takeWhile stops at a failing element, so everything appended after it is
irrelevant. -/
theorem takeWhile_append_stop (p : Char → Bool) (hp : p '.' = false)
    (a b : List Char) : (a ++ '.' :: b).takeWhile p = a.takeWhile p := by
  induction a with
  | nil => simp [List.takeWhile_cons, hp]
  | cons c t ih =>
    rw [List.cons_append, List.takeWhile_cons, List.takeWhile_cons, ih]

/-- hashBeforeDot ignores everything from an appended dot onward. -/
theorem hashBeforeDot_append (h e : String) :
    hashBeforeDot (h ++ "." ++ e) = hashBeforeDot h := by
  unfold hashBeforeDot
  have hd : (h ++ "." ++ e).data = h.data ++ '.' :: e.data := by
    simp [String.data_append]
  rw [hd]
  rw [takeWhile_append_stop _ (by decide) h.data e.data]

/-- C1 counterexample: a query whose plan is mutating (DROP TABLE) with a
correctly matching path hash gets status 405, not 200, refuting "200 iff the
hash matches". -/
theorem C1_counterexample_hash_gate :
    hashBeforeDot "" = (fun _ : String => "") "" ∧
    (cached_read_query (fun _ => "") (fun _ => .node .dropTable [])
        (fun _ => "") "" "" none).1.status = 405 ∧
    (cached_read_query (fun _ => "") (fun _ => .node .dropTable [])
        (fun _ => "") "" "" none).1.status ≠ 200 := by
  refine ⟨rfl, rfl, ?_⟩
  decide

/-- C1 amended: the cached GET returns 400 with body exactly HASH_MISMATCH
iff the prefix of the path hash up to the first '.' differs from the digest
of the query (when they agree the later stages produce 405, 304 or 200
instead); and for any suffix appended after a dot the route behaves
identically. -/
theorem C1_hash_gate_amended (sha256hex : String → String)
    (create_logical_plan : String → LogicalPlan)
    (execute : LogicalPlan → String) (query_hash query : String)
    (if_none_match : Option String) :
    (((cached_read_query sha256hex create_logical_plan execute query_hash
          query if_none_match).1.status = 400 ∧
      (cached_read_query sha256hex create_logical_plan execute query_hash
          query if_none_match).1.body = "HASH_MISMATCH")
      ↔ hashBeforeDot query_hash ≠ sha256hex query) ∧
    (∀ ext : String,
      cached_read_query sha256hex create_logical_plan execute
          (query_hash ++ "." ++ ext) query if_none_match
        = cached_read_query sha256hex create_logical_plan execute query_hash
            query if_none_match) := by
  constructor
  · by_cases hq : hashBeforeDot query_hash = sha256hex query
    · simp only [cached_read_query, hq, ne_eq, not_true_eq_false, if_false,
        iff_false, not_and]
      split
      · intro h
        simp at h
      · split
        · intro h
          simp at h
        · intro h
          simp at h
    · simp [cached_read_query, hq]
  · intro ext
    simp only [cached_read_query, hashBeforeDot_append]

/-- C2: the plan is classified mutating iff its root kind is one of the
eight listed kinds; a hash-matching cached GET of a mutating plan answers
405 NOT_READ_ONLY_QUERY having called only reload_schema and
create_logical_plan (no ETag computation, no execution); any other root
proceeds as read-only (an ETag is computed and the status is not 405). -/
theorem C2_read_only_gate (sha256hex : String → String)
    (create_logical_plan : String → LogicalPlan)
    (execute : LogicalPlan → String) (query_hash query : String)
    (if_none_match : Option String)
    (hmatch : hashBeforeDot query_hash = sha256hex query) :
    (∀ p : LogicalPlan, is_mutating p = true ↔ rootKind p ∈ mutatingKinds) ∧
    (is_mutating (create_logical_plan query) = true →
      cached_read_query sha256hex create_logical_plan execute query_hash
          query if_none_match
        = (⟨405, "NOT_READ_ONLY_QUERY", none⟩,
           [.reloadSchema, .createLogicalPlan])) ∧
    (is_mutating (create_logical_plan query) = false →
      (cached_read_query sha256hex create_logical_plan execute query_hash
          query if_none_match).1.status ≠ 405 ∧
      CtxEvent.computeEtag ∈
        (cached_read_query sha256hex create_logical_plan execute query_hash
          query if_none_match).2) := by
  refine ⟨?_, ?_, ?_⟩
  · intro p
    obtain ⟨k, inputs⟩ := p
    cases k <;> simp [is_mutating, rootKind, mutatingKinds]
  · intro hm
    simp [cached_read_query, hmatch, hm]
  · intro hm
    simp only [cached_read_query, hmatch, ne_eq, not_true_eq_false, if_false,
      hm, Bool.false_eq_true]
    split <;> simp

/-- Witness for C2: the DROP TABLE plan on a matching empty-digest hash gets
exactly the 405 response with only the two collaborator calls. -/
theorem C2_read_only_gate_witness :
    cached_read_query (fun _ => "") (fun _ => .node .dropTable [])
        (fun _ => "") "" "" none
      = (⟨405, "NOT_READ_ONLY_QUERY", none⟩,
         [.reloadSchema, .createLogicalPlan]) :=
  (C2_read_only_gate (fun _ => "") (fun _ => .node .dropTable [])
    (fun _ => "") "" "" none rfl).2.1 rfl

/-- C3: a hash-matching, read-only cached GET whose If-None-Match equals the
ETag the server computes answers 304 NOT_MODIFIED and makes no
create_physical_plan or collect call into the Context. -/
theorem C3_validator_short_circuit (sha256hex : String → String)
    (create_logical_plan : String → LogicalPlan)
    (execute : LogicalPlan → String) (query_hash query etag : String)
    (hmatch : hashBeforeDot query_hash = sha256hex query)
    (hro : is_mutating (create_logical_plan query) = false)
    (hetag : etag = plan_to_etagU sha256hex (create_logical_plan query)) :
    cached_read_query sha256hex create_logical_plan execute query_hash query
        (some etag)
      = (⟨304, "NOT_MODIFIED", none⟩,
         [.reloadSchema, .createLogicalPlan, .computeEtag]) ∧
    CtxEvent.createPhysicalPlan ∉
      (cached_read_query sha256hex create_logical_plan execute query_hash
        query (some etag)).2 ∧
    CtxEvent.collect ∉
      (cached_read_query sha256hex create_logical_plan execute query_hash
        query (some etag)).2 := by
  have hmain : cached_read_query sha256hex create_logical_plan execute
      query_hash query (some etag)
      = (⟨304, "NOT_MODIFIED", none⟩,
         [.reloadSchema, .createLogicalPlan, .computeEtag]) := by
    simp [cached_read_query, hmatch, hro, hetag]
  refine ⟨hmain, ?_, ?_⟩ <;> rw [hmain] <;> decide

/-- Witness for C3 at a concrete read-only plan (an empty relation) with the
digest fixed to the constant empty string. -/
theorem C3_validator_short_circuit_witness :
    cached_read_query (fun _ => "") (fun _ => .node .emptyRelation [])
        (fun _ => "") "" "" (some "")
      = (⟨304, "NOT_MODIFIED", none⟩,
         [.reloadSchema, .createLogicalPlan, .computeEtag]) :=
  (C3_validator_short_circuit (fun _ => "") (fun _ => .node .emptyRelation [])
    (fun _ => "") "" "" "" rfl rfl rfl).1

/-- When every file part carries a filename and every CSV/Parquet payload
decodes, the loop returns 400 at the first unsupported-suffix file part and
otherwise falls through. -/
theorem uploadLoop_eq (env : UploadEnv) (tn : String) :
    ∀ parts : List Part,
      (∀ p ∈ parts, p.name = "file" → p.filename.isSome = true) →
      (∀ p ∈ parts, p.name = "file" → ∀ f, p.filename = some f →
        (ends_with f ".csv" = true → (env.decode_csv p.content).isSome = true) ∧
        (ends_with f ".parquet" = true →
          (env.decode_parquet p.content).isSome = true)) →
      uploadLoop env tn parts
        = match parts.find? isBadFilePart with
          | some p => some (some ⟨400,
              "File " ++ p.filename.getD "" ++ " not supported", none⟩)
          | none => some none
  | [], _, _ => by simp [uploadLoop]
  | p :: rest, hfname, hdecode => by
    have ih := uploadLoop_eq env tn rest
      (fun q hq hn => hfname q (List.mem_cons_of_mem _ hq) hn)
      (fun q hq => hdecode q (List.mem_cons_of_mem _ hq))
    by_cases hname : p.name = "file"
    · obtain ⟨f, hf⟩ := Option.isSome_iff_exists.mp
        (hfname p (List.mem_cons_self _ _) hname)
      by_cases hcsv : ends_with f ".csv" = true
      · obtain ⟨pt, hpt⟩ := Option.isSome_iff_exists.mp
          ((hdecode p (List.mem_cons_self _ _) hname f hf).1 hcsv)
        rw [List.find?_cons_of_neg _ (by simp [isBadFilePart, hname, hf, hcsv])]
        simp only [uploadLoop, hname, hf, hcsv, hpt, if_true, eq_self_iff_true,
          if_pos]
        rw [ih]
      · by_cases hpq : ends_with f ".parquet" = true
        · obtain ⟨sp, hsp⟩ := Option.isSome_iff_exists.mp
            ((hdecode p (List.mem_cons_self _ _) hname f hf).2 hpq)
          rw [List.find?_cons_of_neg _
            (by simp [isBadFilePart, hname, hf, hpq])]
          simp only [uploadLoop, hname, hf, hcsv, hpq, eq_self_iff_true,
            if_pos, Bool.false_eq_true, if_false]
          rw [hsp, ih]
        · rw [List.find?_cons_of_pos _
            (by simp [isBadFilePart, hname, hf, hcsv, hpq])]
          simp [uploadLoop, hname, hf, hcsv, hpq]
    · rw [List.find?_cons_of_neg _ (by simp [isBadFilePart, hname])]
      simp only [uploadLoop, hname, Bool.false_eq_true, if_false]
      rw [ih]

/-- The loop never looks at the result of plan_to_table: replacing it changes
nothing. -/
theorem uploadLoop_ptt (env : UploadEnv)
    (ptt : ArrowSchema → ArrowPartition → String → Except String Unit)
    (tn : String) :
    ∀ parts : List Part,
      uploadLoop ⟨env.decode_csv, env.decode_parquet, ptt⟩ tn parts
        = uploadLoop env tn parts
  | [] => rfl
  | p :: rest => by
    have ih := uploadLoop_ptt env ptt tn rest
    by_cases hname : p.name = "file"
    · cases hf : p.filename with
      | none => simp [uploadLoop, hname, hf]
      | some f =>
        by_cases hcsv : ends_with f ".csv" = true
        · cases hdc : env.decode_csv p.content with
          | none => simp [uploadLoop, hname, hf, hcsv, hdc]
          | some pt => simp [uploadLoop, hname, hf, hcsv, hdc, ih]
        · by_cases hpq : ends_with f ".parquet" = true
          · cases hdp : env.decode_parquet p.content with
            | none => simp [uploadLoop, hname, hf, hcsv, hpq, hdp]
            | some sp => simp [uploadLoop, hname, hf, hcsv, hpq, hdp, ih]
          · simp [uploadLoop, hname, hf, hcsv, hpq]
    · simp [uploadLoop, hname, ih]

/-- C8 amended: provided every file part carries a declared filename and
every .csv/.parquet payload decodes, the response is 400 "File {f} not
supported" at the first file part with an unsupported suffix and 200 "done"
otherwise — in particular the result of plan_to_table is discarded, so
replacing it (e.g. by one that always errors) never changes the response.
(As stated the claim also promised 200 when a payload fails to decode; there
the handler panics instead.) -/
theorem C8_upload_amended (env : UploadEnv) (schema_name table_name : String)
    (parts : List Part)
    (hfname : ∀ p ∈ parts, p.name = "file" → p.filename.isSome = true)
    (hdecode : ∀ p ∈ parts, p.name = "file" → ∀ f, p.filename = some f →
      (ends_with f ".csv" = true → (env.decode_csv p.content).isSome = true) ∧
      (ends_with f ".parquet" = true →
        (env.decode_parquet p.content).isSome = true)) :
    (match parts.find? isBadFilePart with
     | some p => upload env schema_name table_name parts
         = some ⟨400, "File " ++ p.filename.getD "" ++ " not supported", none⟩
     | none => upload env schema_name table_name parts
         = some ⟨200, "done", none⟩) ∧
    (∀ ptt, upload ⟨env.decode_csv, env.decode_parquet, ptt⟩ schema_name
        table_name parts
      = upload env schema_name table_name parts) := by
  constructor
  · have h := uploadLoop_eq env table_name parts hfname hdecode
    cases hfind : parts.find? isBadFilePart with
    | some p =>
      rw [hfind] at h
      simp [upload, h]
    | none =>
      rw [hfind] at h
      simp [upload, h]
  · intro ptt
    rw [upload, upload, uploadLoop_ptt]

/-- Witness for C8: a single well-formed CSV file part with a plan_to_table
that always errors still yields 200 "done". -/
theorem C8_upload_amended_witness :
    upload ⟨fun _ => some [], fun _ => some ([], []),
        fun _ _ _ => .error "store-error"⟩ "schema" "tbl"
      [⟨"file", some "data.csv", [7]⟩] = some ⟨200, "done", none⟩ := by
  have h := (C8_upload_amended
    ⟨fun _ => some [], fun _ => some ([], []), fun _ _ _ => .error "store-error"⟩
    "schema" "tbl" [⟨"file", some "data.csv", [7]⟩]
    (by decide)
    (by
      intro p hp hn f hfeq
      have hp1 : p = ⟨"file", some "data.csv", [7]⟩ := by
        simpa using hp
      subst hp1
      have hf1 : f = "data.csv" := by
        simpa using hfeq.symm
      subst hf1
      exact ⟨fun _ => rfl, fun _ => rfl⟩)).1
  have hfind : ([⟨"file", some "data.csv", [7]⟩] : List Part).find?
      isBadFilePart = none := by decide
  rw [hfind] at h
  exact h

/-- C8 counterexample: a part named "file" with a ".csv" filename whose
payload the CSV reader rejects makes the handler panic on the unwrap (no
response at all), not return 200 "done" — even though no part has an
unsupported suffix. -/
theorem C8_counterexample_upload_panic :
    upload ⟨fun _ => none, fun _ => none, fun _ _ _ => .ok ()⟩ "schema" "tbl"
      [⟨"file", some "data.csv", [7]⟩] = none ∧
    ([⟨"file", some "data.csv", [7]⟩] : List Part).find? isBadFilePart
      = none := by
  constructor
  · rfl
  · decide

end Seafowl
